import Mathlib

/-!
# Verification of the Quora posting bot core (scripts/quora-bot.js)

A shallow embedding of the decision logic of the bot: the lenient magnitude
parser, candidate discovery and deduplication, the candidate scoring pass with
its challenge-abort rule, the stable descending sort, the posting fallback
state machine of one attempt, and the top-level quadratic-backoff retry loop.

Page rendering, DOM querying and network fetch are an external collaborator:
they are modelled as explicit inputs (the anchor list a search yields, and a
per-URL visit outcome function).  `Math.log10` is a parameter `log10` of the
embedding, since scores are real-valued only through that one library call.
Machine floats are modelled by exact rationals.
-/

namespace QuoraBot

/-! ## The magnitude parser (`parseNumberFromText`, lines 92-103)

JavaScript semantics embedded here: `t.replace(/,/g,'')` removes every comma,
`trim` strips surrounding whitespace, `match(/([\d\.]+)\s*(k|m)?/i)` finds the
first maximal run of digits/dots and an optional `k`/`m` one character after
optional whitespace, `parseFloat` reads leading digits, one dot and following
digits (NaN when it reads no digit at all), and `Math.round` rounds half
towards positive infinity.  `none` in the result models a NaN return. -/

/-- Numeric value of a decimal digit character. -/
def digitVal (c : Char) : ℕ := c.toNat - 48

/-- Big-endian decimal fold, the value of a run of digit characters. -/
def digitsVal (ds : List Char) : ℕ := ds.foldl (fun acc c => 10 * acc + digitVal c) 0

/-- Character class of the regex `[\d\.]`. -/
def isNumChar (c : Char) : Bool := c.isDigit || c == '.'

/-- Split a `parseFloat` mantissa into its leading digit run and, when a dot
follows, the digit run after the dot. -/
def mantissaSplit (m : List Char) : List Char × Option (List Char) :=
  match m.dropWhile Char.isDigit with
  | '.' :: r => (m.takeWhile Char.isDigit, some (r.takeWhile Char.isDigit))
  | _ => (m.takeWhile Char.isDigit, none)

/-- Value of a split mantissa; `none` models the NaN `parseFloat` returns when
it reads no digit at all. -/
def mantissaVal : List Char × Option (List Char) → Option ℚ
  | (intd, none) => if intd.isEmpty then none else some ((digitsVal intd : ℚ))
  | (intd, some fracd) =>
    if intd.isEmpty && fracd.isEmpty then none
    else some ((digitsVal intd : ℚ) + (digitsVal fracd : ℚ) / (10 : ℚ) ^ fracd.length)

/-- `parseFloat` on the captured mantissa (a run of digits and dots). -/
def parseFloatQ (m : List Char) : Option ℚ := mantissaVal (mantissaSplit m)

/-- First match of `([\d\.]+)` in the cleaned text: the maximal run of
digits/dots starting at the first digit/dot, plus the remaining characters. -/
def findNum : List Char → Option (List Char × List Char)
  | [] => none
  | c :: cs =>
    if isNumChar c then some ((c :: cs).takeWhile isNumChar, (c :: cs).dropWhile isNumChar)
    else findNum cs

/-- The optional `(k|m)?` unit (case-insensitive) after `\s*`. -/
def unitOf (rest : List Char) : Option Char :=
  match rest.dropWhile Char.isWhitespace with
  | c :: _ =>
    if c == 'k' || c == 'K' then some 'k'
    else if c == 'm' || c == 'M' then some 'm'
    else none
  | [] => none

/-- The two sequential unit checks `if(unit==='k') num *= 1000;
if(unit==='m') num *= 1000000;`. -/
def applyUnit (num : ℚ) : Option Char → ℚ
  | some 'k' => num * 1000
  | some 'm' => num * 1000000
  | _ => num

/-- `Math.round` for non-negative arguments: half rounds up. -/
def jsRound (q : ℚ) : ℤ := ⌊q + 1 / 2⌋

/-- JavaScript `trim` on a character list. -/
def jsTrimList (s : List Char) : List Char :=
  ((s.dropWhile Char.isWhitespace).reverse.dropWhile Char.isWhitespace).reverse

/-- `t.replace(/,/g,'').trim()` on the input text. -/
def cleanedOf (t : String) : List Char :=
  jsTrimList (t.data.filter (fun c => c ≠ ','))

/-- The scale-and-round tail of the parser, after `parseFloat`: NaN
propagates, otherwise the unit is applied and the result rounded. -/
def roundScaled (rest : List Char) : Option ℚ → Option ℤ
  | none => none
  | some num => some (jsRound (applyUnit num (unitOf rest)))

/-- The regex-match branch of the parser: no digit/dot at all yields the
explicit 0, otherwise the captured mantissa is parsed, scaled and rounded. -/
def parseMatched : Option (List Char × List Char) → Option ℤ
  | none => some 0
  | some (m, rest) => roundScaled rest (parseFloatQ m)

/-- `parseNumberFromText` (lines 93-103).  `some 0` is the explicit zero the
code returns on an empty input or a text without digits; `none` models the NaN
that `parseFloat` can produce on a digitless mantissa such as `"."`. -/
def parseNumberFromText (t : String) : Option ℤ :=
  if t = "" then some 0
  else parseMatched (findNum (cleanedOf t))

/-! ### Evaluation lemmas for the parser -/

theorem jsRound_eq (q : ℚ) (z : ℤ) (h1 : (z : ℚ) ≤ q + 1 / 2) (h2 : q + 1 / 2 < z + 1) :
    jsRound q = z := by
  unfold jsRound
  exact Int.floor_eq_iff.mpr ⟨h1, h2⟩

theorem dropWhile_eq_self_of_none {α} (p : α → Bool) :
    ∀ l : List α, (∀ c ∈ l, p c = false) → l.dropWhile p = l
  | [], _ => rfl
  | c :: cs, h => by
    have hc : p c = false := h c (List.mem_cons_self c cs)
    simp [List.dropWhile, hc]

theorem jsTrimList_eq_self (l : List Char) (h : ∀ c ∈ l, c.isWhitespace = false) :
    jsTrimList l = l := by
  unfold jsTrimList
  rw [dropWhile_eq_self_of_none _ l h,
    dropWhile_eq_self_of_none _ l.reverse (by intro c hc; exact h c (List.mem_reverse.mp hc)),
    List.reverse_reverse]

theorem takeWhile_append_all {α} (p : α → Bool) :
    ∀ (l₁ l₂ : List α), (∀ c ∈ l₁, p c = true) →
      (l₁ ++ l₂).takeWhile p = l₁ ++ l₂.takeWhile p
  | [], l₂, _ => rfl
  | c :: cs, l₂, h => by
    have hc : p c = true := h c (List.mem_cons_self c cs)
    simp only [List.cons_append, List.takeWhile_cons, hc, if_true]
    rw [takeWhile_append_all p cs l₂ (fun d hd => h d (List.mem_cons_of_mem c hd))]

theorem dropWhile_append_all {α} (p : α → Bool) :
    ∀ (l₁ l₂ : List α), (∀ c ∈ l₁, p c = true) →
      (l₁ ++ l₂).dropWhile p = l₂.dropWhile p
  | [], l₂, _ => rfl
  | c :: cs, l₂, h => by
    have hc : p c = true := h c (List.mem_cons_self c cs)
    simp only [List.cons_append, List.dropWhile_cons, hc, if_true]
    exact dropWhile_append_all p cs l₂ (fun d hd => h d (List.mem_cons_of_mem c hd))

theorem digit_isNumChar {c : Char} (h : c.isDigit = true) : isNumChar c = true := by
  simp [isNumChar, h]

theorem digit_not_whitespace {c : Char} (h : c.isDigit = true) : c.isWhitespace = false := by
  rcases Bool.eq_false_or_eq_true c.isWhitespace with hw | hw
  swap
  · exact hw
  · exfalso
    unfold Char.isWhitespace at hw
    simp only [Bool.or_eq_true, decide_eq_true_eq] at hw
    rcases hw with ((h1 | h1) | h1) | h1 <;> (subst h1; simp [Char.isDigit] at h)

theorem digit_ne_comma {c : Char} (h : c.isDigit = true) : c ≠ ',' := by
  intro hc
  subst hc
  simp [Char.isDigit] at h

theorem mantissaSplit_of_dropWhile_nil {m : List Char} (h : m.dropWhile Char.isDigit = []) :
    mantissaSplit m = (m.takeWhile Char.isDigit, none) := by
  unfold mantissaSplit
  rw [h]

theorem mantissaSplit_of_dropWhile_dot {m r : List Char}
    (h : m.dropWhile Char.isDigit = '.' :: r) :
    mantissaSplit m = (m.takeWhile Char.isDigit, some (r.takeWhile Char.isDigit)) := by
  unfold mantissaSplit
  rw [h]
  rfl

/-- `parseFloat` on a pure nonempty digit run is its decimal value. -/
theorem parseFloatQ_digits (ds : List Char) (hne : ds ≠ [])
    (hd : ∀ c ∈ ds, c.isDigit = true) : parseFloatQ ds = some ((digitsVal ds : ℚ)) := by
  unfold parseFloatQ
  rw [mantissaSplit_of_dropWhile_nil (List.dropWhile_eq_nil_iff.mpr hd),
    List.takeWhile_eq_self_iff.mpr hd]
  simp [mantissaVal, List.isEmpty_iff, hne]

/-- The cleaned text of a digit run, possibly extended by one trailing
non-comma non-whitespace character, is itself. -/
theorem cleanedOf_mk_digits_append (ds tail : List Char)
    (hd : ∀ c ∈ ds, c.isDigit = true)
    (ht : ∀ c ∈ tail, (c ≠ ',') ∧ c.isWhitespace = false) :
    cleanedOf (String.mk (ds ++ tail)) = ds ++ tail := by
  unfold cleanedOf
  have hdata : (String.mk (ds ++ tail)).data = ds ++ tail := rfl
  rw [hdata, List.filter_eq_self.mpr, jsTrimList_eq_self]
  · intro c hc
    rcases List.mem_append.mp hc with h | h
    · exact digit_not_whitespace (hd c h)
    · exact (ht c h).2
  · intro c hc
    rcases List.mem_append.mp hc with h | h
    · exact decide_eq_true (digit_ne_comma (hd c h))
    · exact decide_eq_true (ht c h).1

theorem findNum_digits_append (ds tail : List Char) (hne : ds ≠ [])
    (hd : ∀ c ∈ ds, c.isDigit = true)
    (ht : ∀ c, tail.head? = some c → isNumChar c = false) :
    findNum (ds ++ tail) = some (ds, tail) := by
  match ds, hne with
  | c :: cs, _ =>
    have hc : c.isDigit = true := hd c (List.mem_cons_self c cs)
    have hall : ∀ x ∈ c :: cs, isNumChar x = true := fun x hx => digit_isNumChar (hd x hx)
    have htake : ((c :: cs) ++ tail).takeWhile isNumChar = (c :: cs) ++ tail.takeWhile isNumChar :=
      takeWhile_append_all _ _ _ hall
    have hdrop : ((c :: cs) ++ tail).dropWhile isNumChar = tail.dropWhile isNumChar :=
      dropWhile_append_all _ _ _ hall
    have htail_take : tail.takeWhile isNumChar = [] := by
      cases tail with
      | nil => rfl
      | cons t ts => simp [List.takeWhile_cons, ht t rfl]
    have htail_drop : tail.dropWhile isNumChar = tail := by
      cases tail with
      | nil => rfl
      | cons t ts => simp [List.dropWhile_cons, ht t rfl]
    show findNum ((c :: cs) ++ tail) = some (c :: cs, tail)
    rw [List.cons_append]
    unfold findNum
    rw [if_pos (digit_isNumChar hc)]
    rw [← List.cons_append, htake, hdrop, htail_take, htail_drop, List.append_nil]

/-- Evaluation of the parser on a cleaned pure digit run followed by an
optional-unit tail. -/
theorem parse_digits_tail (t : String) (ds tail : List Char) (h0 : ¬t = "")
    (hc : cleanedOf t = ds ++ tail) (hne : ds ≠ [])
    (hd : ∀ c ∈ ds, c.isDigit = true)
    (ht : ∀ c, tail.head? = some c → isNumChar c = false) :
    parseNumberFromText t = some (jsRound (applyUnit ((digitsVal ds : ℚ)) (unitOf tail))) := by
  unfold parseNumberFromText
  rw [if_neg h0, hc, findNum_digits_append ds tail hne hd ht]
  show roundScaled tail (parseFloatQ ds) = _
  rw [parseFloatQ_digits ds hne hd]
  rfl

theorem jsRound_natCast (n : ℕ) : jsRound ((n : ℚ)) = (n : ℤ) := by
  apply jsRound_eq
  · push_cast
    linarith
  · push_cast
    linarith

theorem jsRound_natCast_mulConst (n k : ℕ) : jsRound ((n : ℚ) * (k : ℚ)) = (k : ℤ) * (n : ℤ) := by
  apply jsRound_eq
  · push_cast
    nlinarith [sq_nonneg ((n : ℚ) - (k : ℚ))]
  · push_cast
    nlinarith [sq_nonneg ((n : ℚ) - (k : ℚ))]

theorem mk_ne_empty {l : List Char} (hne : l ≠ []) : ¬String.mk l = "" := by
  intro h
  have hd : (String.mk l).data = ("" : String).data := by rw [h]
  exact hne hd

theorem applyUnit_none (q : ℚ) : applyUnit q none = q := rfl

theorem applyUnit_k (q : ℚ) : applyUnit q (some 'k') = q * 1000 := rfl

theorem applyUnit_m (q : ℚ) : applyUnit q (some 'm') = q * 1000000 := rfl

/-- Evaluation of the parser on any text whose cleaned form is a nonempty pure
digit run. -/
theorem parse_of_cleaned_digits (t : String) (h0 : ¬t = "") (ds : List Char)
    (hc : cleanedOf t = ds) (hne : ds ≠ []) (hd : ∀ c ∈ ds, c.isDigit = true) :
    parseNumberFromText t = some ((digitsVal ds : ℤ)) := by
  have h := parse_digits_tail t ds [] h0 (by rw [List.append_nil]; exact hc) hne hd
    (fun c hc => Option.noConfusion hc)
  rw [h]
  show some (jsRound ((digitsVal ds : ℚ))) = _
  rw [jsRound_natCast]

/-- A nonempty digit run parses to its decimal value. -/
theorem parse_digits (ds : List Char) (hne : ds ≠ []) (hd : ∀ c ∈ ds, c.isDigit = true) :
    parseNumberFromText (String.mk ds) = some ((digitsVal ds : ℤ)) := by
  apply parse_of_cleaned_digits _ (mk_ne_empty hne) _ _ hne hd
  have h := cleanedOf_mk_digits_append ds [] hd (by intro c hc; cases hc)
  rwa [List.append_nil] at h

/-- A nonempty digit run with a `k` suffix parses to 1000 times its value. -/
theorem parse_digits_k (ds : List Char) (hne : ds ≠ []) (hd : ∀ c ∈ ds, c.isDigit = true) :
    parseNumberFromText (String.mk (ds ++ ['k'])) = some (1000 * (digitsVal ds : ℤ)) := by
  have h0 : ¬String.mk (ds ++ ['k']) = "" := mk_ne_empty (by simp)
  have hc := cleanedOf_mk_digits_append ds ['k'] hd
    (by intro c hc; rw [List.mem_singleton.mp hc]; exact ⟨by decide, by decide⟩)
  have h := parse_digits_tail _ ds ['k'] h0 hc hne hd (fun c hc => by cases hc; decide)
  rw [h, show unitOf ['k'] = some 'k' from by decide, applyUnit_k,
    show ((1000 : ℚ)) = ((1000 : ℕ) : ℚ) from by norm_num, jsRound_natCast_mulConst]
  norm_num

/-- A nonempty digit run with an `m` suffix parses to 1000000 times its value. -/
theorem parse_digits_m (ds : List Char) (hne : ds ≠ []) (hd : ∀ c ∈ ds, c.isDigit = true) :
    parseNumberFromText (String.mk (ds ++ ['m'])) = some (1000000 * (digitsVal ds : ℤ)) := by
  have h0 : ¬String.mk (ds ++ ['m']) = "" := mk_ne_empty (by simp)
  have hc := cleanedOf_mk_digits_append ds ['m'] hd
    (by intro c hc; rw [List.mem_singleton.mp hc]; exact ⟨by decide, by decide⟩)
  have h := parse_digits_tail _ ds ['m'] h0 hc hne hd (fun c hc => by cases hc; decide)
  rw [h, show unitOf ['m'] = some 'm' from by decide, applyUnit_m,
    show ((1000000 : ℚ)) = ((1000000 : ℕ) : ℚ) from by norm_num, jsRound_natCast_mulConst]
  norm_num

/-- Comma separators are stripped before parsing. -/
theorem parse_digits_comma (ds₁ ds₂ : List Char) (hd₁ : ∀ c ∈ ds₁, c.isDigit = true)
    (hd₂ : ∀ c ∈ ds₂, c.isDigit = true) (hne : ds₁ ++ ds₂ ≠ []) :
    parseNumberFromText (String.mk (ds₁ ++ ',' :: ds₂)) = some ((digitsVal (ds₁ ++ ds₂) : ℤ)) := by
  have hall : ∀ c ∈ ds₁ ++ ds₂, c.isDigit = true := by
    intro c hc
    rcases List.mem_append.mp hc with h | h
    · exact hd₁ c h
    · exact hd₂ c h
  apply parse_of_cleaned_digits _ (mk_ne_empty (by simp)) _ _ hne hall
  unfold cleanedOf
  have hdata : (String.mk (ds₁ ++ ',' :: ds₂)).data = ds₁ ++ ',' :: ds₂ := rfl
  rw [hdata, List.filter_append, List.filter_cons_of_neg (by decide),
    List.filter_eq_self.mpr (fun c hc => decide_eq_true (digit_ne_comma (hd₁ c hc))),
    List.filter_eq_self.mpr (fun c hc => decide_eq_true (digit_ne_comma (hd₂ c hc)))]
  exact jsTrimList_eq_self _ (fun c hc => digit_not_whitespace (hall c hc))

theorem findNum_all_num (l : List Char) (hne : l ≠ []) (h : ∀ c ∈ l, isNumChar c = true) :
    findNum l = some (l, []) := by
  match l, hne with
  | c :: cs, _ =>
    unfold findNum
    rw [if_pos (h c (List.mem_cons_self c cs)), List.takeWhile_eq_self_iff.mpr h,
      List.dropWhile_eq_nil_iff.mpr h]

/-- A fractional mantissa `digits.digits` parses to the rounded rational
value. -/
theorem parse_digits_frac (ds₁ ds₂ : List Char) (h₁ : ds₁ ≠ []) (h₂ : ds₂ ≠ [])
    (hd₁ : ∀ c ∈ ds₁, c.isDigit = true) (hd₂ : ∀ c ∈ ds₂, c.isDigit = true) :
    parseNumberFromText (String.mk (ds₁ ++ '.' :: ds₂)) =
      some (jsRound ((digitsVal ds₁ : ℚ) + (digitsVal ds₂ : ℚ) / (10 : ℚ) ^ ds₂.length)) := by
  have h0 : ¬String.mk (ds₁ ++ '.' :: ds₂) = "" := mk_ne_empty (by simp)
  have hc := cleanedOf_mk_digits_append ds₁ ('.' :: ds₂) hd₁ (by
    intro c hc
    rcases List.mem_cons.mp hc with h | h
    · rw [h]; exact ⟨by decide, by decide⟩
    · exact ⟨digit_ne_comma (hd₂ c h), digit_not_whitespace (hd₂ c h)⟩)
  have hnum : ∀ c ∈ ds₁ ++ '.' :: ds₂, isNumChar c = true := by
    intro c hc
    rcases List.mem_append.mp hc with h | h
    · exact digit_isNumChar (hd₁ c h)
    · rcases List.mem_cons.mp h with h | h
      · rw [h]; decide
      · exact digit_isNumChar (hd₂ c h)
  unfold parseNumberFromText
  rw [if_neg h0, hc, findNum_all_num _ (by simp) hnum]
  show roundScaled [] (parseFloatQ (ds₁ ++ '.' :: ds₂)) = _
  have hdrop : (ds₁ ++ '.' :: ds₂).dropWhile Char.isDigit = '.' :: ds₂ := by
    rw [dropWhile_append_all _ _ _ hd₁, List.dropWhile_cons]
    simp [show ('.').isDigit = false by decide]
  have htake : (ds₁ ++ '.' :: ds₂).takeWhile Char.isDigit = ds₁ := by
    rw [takeWhile_append_all _ _ _ hd₁, List.takeWhile_cons]
    simp [show ('.').isDigit = false by decide]
  unfold parseFloatQ
  rw [mantissaSplit_of_dropWhile_dot hdrop, htake, List.takeWhile_eq_self_iff.mpr hd₂]
  show roundScaled [] (mantissaVal (ds₁, some ds₂)) = _
  simp only [mantissaVal]
  rw [if_neg (by simp [List.isEmpty_iff, h₁])]
  rfl

/-- `digitsVal` agrees with the standard little-endian decimal semantics
`Nat.ofDigits`. -/
theorem digitsVal_eq_ofDigits (ds : List Char) :
    digitsVal ds = Nat.ofDigits 10 ((ds.map digitVal).reverse) := by
  induction ds using List.reverseRecOn with
  | nil => simp [digitsVal, Nat.ofDigits]
  | append_singleton l c ih =>
    have h1 : digitsVal (l ++ [c]) = 10 * digitsVal l + digitVal c := by
      simp [digitsVal, List.foldl_append]
    have h2 : ((l ++ [c]).map digitVal).reverse = digitVal c :: (l.map digitVal).reverse := by
      simp
    rw [h1, h2, Nat.ofDigits_cons, ih]
    ring

theorem parse_vec_comma : parseNumberFromText "1,234" = some 1234 := by
  have h := parse_of_cleaned_digits "1,234" (by decide) ['1', '2', '3', '4']
    (by decide) (by decide) (by decide)
  rw [h, show digitsVal ['1', '2', '3', '4'] = 1234 from by decide]
  norm_num

theorem parse_vec_k : parseNumberFromText "1.2k" = some 1200 := by
  unfold parseNumberFromText
  rw [if_neg (by decide),
    show cleanedOf "1.2k" = ['1', '.', '2', 'k'] from by decide,
    show findNum ['1', '.', '2', 'k'] = some (['1', '.', '2'], ['k']) from by decide]
  show roundScaled ['k'] (parseFloatQ ['1', '.', '2']) = _
  unfold parseFloatQ
  rw [show mantissaSplit ['1', '.', '2'] = (['1'], some ['2']) from by decide]
  simp only [mantissaVal]
  rw [if_neg (by decide)]
  show some (jsRound (applyUnit ((digitsVal ['1'] : ℚ) + (digitsVal ['2'] : ℚ) / 10 ^ 1)
    (unitOf ['k']))) = _
  rw [show unitOf ['k'] = some 'k' from by decide, applyUnit_k,
    show digitsVal ['1'] = 1 from by decide, show digitsVal ['2'] = 2 from by decide,
    jsRound_eq _ 1200 (by push_cast; norm_num) (by push_cast; norm_num)]

theorem parse_vec_m : parseNumberFromText "3m" = some 3000000 := by
  have h := parse_digits_m ['3'] (by decide) (by decide)
  rw [show String.mk (['3'] ++ ['m']) = "3m" from by decide] at h
  rw [h, show digitsVal ['3'] = 3 from by decide]
  norm_num

theorem parse_vec_empty : parseNumberFromText "" = some 0 := by
  unfold parseNumberFromText
  rw [if_pos rfl]

theorem parse_vec_abc : parseNumberFromText "abc" = some 0 := by
  unfold parseNumberFromText
  rw [if_neg (by decide), show cleanedOf "abc" = ['a', 'b', 'c'] from by decide,
    show findNum ['a', 'b', 'c'] = none from by decide]
  rfl

/-- C2: the magnitude parser satisfies the spec test vectors
`parse("1,234")=1234`, `parse("1.2k")=1200`, `parse("3m")=3000000`,
`parse("")=0`, `parse("abc")=0`, and in general accepts bare integers, comma
separators, `k`/`m` suffixes multiplying by 1000 and 1000000, and fractional
mantissas; `digitsVal` is the standard decimal value (`Nat.ofDigits`). -/
theorem C2_magnitude_parse :
    parseNumberFromText "1,234" = some 1234 ∧
    parseNumberFromText "1.2k" = some 1200 ∧
    parseNumberFromText "3m" = some 3000000 ∧
    parseNumberFromText "" = some 0 ∧
    parseNumberFromText "abc" = some 0 ∧
    (∀ ds : List Char, ds ≠ [] → (∀ c ∈ ds, c.isDigit = true) →
      parseNumberFromText (String.mk ds) = some ((digitsVal ds : ℤ)) ∧
      parseNumberFromText (String.mk (ds ++ ['k'])) = some (1000 * (digitsVal ds : ℤ)) ∧
      parseNumberFromText (String.mk (ds ++ ['m'])) = some (1000000 * (digitsVal ds : ℤ))) ∧
    (∀ ds₁ ds₂ : List Char, (∀ c ∈ ds₁, c.isDigit = true) → (∀ c ∈ ds₂, c.isDigit = true) →
      ds₁ ++ ds₂ ≠ [] →
      parseNumberFromText (String.mk (ds₁ ++ ',' :: ds₂)) = some ((digitsVal (ds₁ ++ ds₂) : ℤ))) ∧
    (∀ ds₁ ds₂ : List Char, ds₁ ≠ [] → ds₂ ≠ [] →
      (∀ c ∈ ds₁, c.isDigit = true) → (∀ c ∈ ds₂, c.isDigit = true) →
      parseNumberFromText (String.mk (ds₁ ++ '.' :: ds₂)) =
        some (jsRound ((digitsVal ds₁ : ℚ) + (digitsVal ds₂ : ℚ) / (10 : ℚ) ^ ds₂.length))) ∧
    (∀ ds : List Char, digitsVal ds = Nat.ofDigits 10 ((ds.map digitVal).reverse)) :=
  ⟨parse_vec_comma, parse_vec_k, parse_vec_m, parse_vec_empty, parse_vec_abc,
    fun ds hne hd => ⟨parse_digits ds hne hd, parse_digits_k ds hne hd, parse_digits_m ds hne hd⟩,
    parse_digits_comma, parse_digits_frac, digitsVal_eq_ofDigits⟩

/-- Witness for C2 at the concrete digit run `77` with a `k` suffix. -/
theorem C2_magnitude_parse_witness :
    parseNumberFromText "77k" = some (1000 * (digitsVal ['7', '7'] : ℤ)) := by
  have h := (C2_magnitude_parse.2.2.2.2.2.1 ['7', '7'] (by decide) (by decide)).2.1
  rwa [show String.mk (['7', '7'] ++ ['k']) = "77k" from by decide] at h

/-! ## Candidate discovery (`collectCandidatesFromSearch`, lines 105-121)

The page driver supplies the anchors matching `a[href^="/"]`; the core trims
their text, keeps interrogative ones, caps at 40, deduplicates by href with a
first-occurrence `Map`, and caps at `maxCandidates` (10 at the call site). -/

structure SearchAnchor where
  text : String
  href : String
deriving DecidableEq, Repr

/-- The insertion-ordered `Map`-based deduplication keeping the first anchor
per href; `seen` is the set of hrefs already in the map. -/
def dedupByHref : List SearchAnchor → List String → List SearchAnchor
  | [], _ => []
  | a :: as, seen =>
    if a.href ∈ seen then dedupByHref as seen
    else a :: dedupByHref as (a.href :: seen)

/-- `trim` on a string, via the whitespace-stripping of `jsTrimList`. -/
def jsTrimStr (s : String) : String := String.mk (jsTrimList s.data)

/-- `text.endsWith('?')`: the last character is a question mark. -/
def endsWithQmark (s : String) : Bool :=
  match s.data.getLast? with
  | some c => c == '?'
  | none => false

/-- Trim, keep anchors with nonempty text ending in a question mark, cap at
40 (the `$$eval` mapping, filter and `slice(0, 40)`). -/
def questionFilter (anchors : List SearchAnchor) : List SearchAnchor :=
  ((anchors.map (fun a => { text := jsTrimStr a.text, href := a.href })).filter
    (fun x => !(x.text == "") && endsWithQmark x.text)).take 40

/-- `collectCandidatesFromSearch` (lines 106-121), given the anchors the
search page yields. -/
def collectCandidatesFromSearch (anchors : List SearchAnchor) (maxCandidates : ℕ) :
    List SearchAnchor :=
  (dedupByHref (questionFilter anchors) []).take maxCandidates

theorem dedupByHref_sublist : ∀ (l : List SearchAnchor) (seen : List String),
    (dedupByHref l seen).Sublist l
  | [], _ => List.Sublist.refl []
  | a :: as, seen => by
    unfold dedupByHref
    by_cases h : a.href ∈ seen
    · rw [if_pos h]
      exact (dedupByHref_sublist as seen).cons a
    · rw [if_neg h]
      exact (dedupByHref_sublist as (a.href :: seen)).cons₂ a

theorem dedupByHref_not_seen : ∀ (l : List SearchAnchor) (seen : List String) (b : SearchAnchor),
    b ∈ dedupByHref l seen → b.href ∉ seen
  | [], _, b, hb => absurd hb (List.not_mem_nil b)
  | a :: as, seen, b, hb => by
    unfold dedupByHref at hb
    by_cases h : a.href ∈ seen
    · rw [if_pos h] at hb
      exact dedupByHref_not_seen as seen b hb
    · rw [if_neg h] at hb
      rcases List.mem_cons.mp hb with rfl | hb
      · exact h
      · have := dedupByHref_not_seen as (a.href :: seen) b hb
        exact fun hs => this (List.mem_cons_of_mem _ hs)

theorem dedupByHref_pairwise : ∀ (l : List SearchAnchor) (seen : List String),
    (dedupByHref l seen).Pairwise (fun a b => a.href ≠ b.href)
  | [], _ => List.Pairwise.nil
  | a :: as, seen => by
    unfold dedupByHref
    by_cases h : a.href ∈ seen
    · rw [if_pos h]
      exact dedupByHref_pairwise as seen
    · rw [if_neg h]
      refine List.Pairwise.cons ?_ (dedupByHref_pairwise as (a.href :: seen))
      intro b hb hab
      exact dedupByHref_not_seen as (a.href :: seen) b hb (hab ▸ List.mem_cons_self _ _)

theorem dedupByHref_find : ∀ (l : List SearchAnchor) (seen : List String) (b : SearchAnchor),
    b ∈ dedupByHref l seen → l.find? (fun x => x.href == b.href) = some b
  | [], _, b, hb => absurd hb (List.not_mem_nil b)
  | a :: as, seen, b, hb => by
    unfold dedupByHref at hb
    by_cases h : a.href ∈ seen
    · rw [if_pos h] at hb
      have hne : a.href ≠ b.href := fun he =>
        dedupByHref_not_seen as seen b hb (he ▸ h)
      rw [List.find?_cons_of_neg, dedupByHref_find as seen b hb]
      simp [hne]
    · rw [if_neg h] at hb
      rcases List.mem_cons.mp hb with rfl | hb
      · rw [List.find?_cons_of_pos]
        simp
      · have hbs := dedupByHref_not_seen as (a.href :: seen) b hb
        have hne : a.href ≠ b.href := fun he => hbs (he ▸ List.mem_cons_self _ _)
        rw [List.find?_cons_of_neg, dedupByHref_find as (a.href :: seen) b hb]
        simp [hne]

/-- C8: discovery returns at most the configured cap of candidates (10 at the
call site), every candidate's trimmed text ends with a question mark, hrefs
are pairwise distinct, and candidates are the first occurrences of their
hrefs in the filtered search results, in search-result order. -/
theorem C8_discovery_bounded_dedup (anchors : List SearchAnchor) (maxCandidates : ℕ) :
    (collectCandidatesFromSearch anchors maxCandidates).length ≤ maxCandidates ∧
    (∀ c ∈ collectCandidatesFromSearch anchors maxCandidates, endsWithQmark c.text = true) ∧
    (collectCandidatesFromSearch anchors maxCandidates).Pairwise (fun a b => a.href ≠ b.href) ∧
    (collectCandidatesFromSearch anchors maxCandidates).Sublist (questionFilter anchors) ∧
    (∀ c ∈ collectCandidatesFromSearch anchors maxCandidates,
      (questionFilter anchors).find? (fun x => x.href == c.href) = some c) := by
  have hsub : (collectCandidatesFromSearch anchors maxCandidates).Sublist
      (dedupByHref (questionFilter anchors) []) := List.take_sublist _ _
  have hsub2 : (collectCandidatesFromSearch anchors maxCandidates).Sublist
      (questionFilter anchors) := hsub.trans (dedupByHref_sublist _ _)
  refine ⟨List.length_take_le _ _, ?_, ?_, hsub2, ?_⟩
  · intro c hc
    have hcf : c ∈ questionFilter anchors := hsub2.subset hc
    have := List.of_mem_filter (List.mem_of_mem_take (by
      simpa [questionFilter] using hcf))
    exact (Bool.and_eq_true_iff.mp this).2
  · exact (dedupByHref_pairwise _ _).sublist hsub
  · intro c hc
    exact dedupByHref_find _ _ c (hsub.subset hc)

/-- Witness for C8 at a concrete anchor list containing a duplicate href and
a non-interrogative anchor, with the default cap 10. -/
theorem C8_discovery_bounded_dedup_witness :
    (collectCandidatesFromSearch
      [⟨" How to market a bakery? ", "/q1"⟩, ⟨"Plain statement", "/q2"⟩,
        ⟨"How to market a bakery?", "/q1"⟩, ⟨"Best flour?", "/q3"⟩] 10).length ≤ 10 ∧
    (∀ c ∈ collectCandidatesFromSearch
      [⟨" How to market a bakery? ", "/q1"⟩, ⟨"Plain statement", "/q2"⟩,
        ⟨"How to market a bakery?", "/q1"⟩, ⟨"Best flour?", "/q3"⟩] 10,
      endsWithQmark c.text = true) := by
  have h := C8_discovery_bounded_dedup
    [⟨" How to market a bakery? ", "/q1"⟩, ⟨"Plain statement", "/q2"⟩,
      ⟨"How to market a bakery?", "/q1"⟩, ⟨"Best flour?", "/q3"⟩] 10
  exact ⟨h.1, h.2.1⟩

/-! ## Candidate scoring (`scoreCandidates`, lines 123-183)

Each candidate page visit is an input from the page driver: whether the visit
threw (the outer `try` of the loop body), whether the page content matches the
challenge regex, and the follower/answer counts the extraction chain yields
(per-candidate extraction failures are already absorbed to zero by the inner
`try` blocks of the source).  On a challenge the pass returns the accumulated
list immediately, skipping the final sort. -/

structure VisitOutcome where
  error : Bool
  challenge : Bool
  followers : ℕ
  answers : ℕ
deriving DecidableEq, Repr

structure Scored where
  href : String
  text : String
  followers : ℕ
  answers : ℕ
  score : ℚ
deriving DecidableEq, Repr

/-- `new URL(c.href, 'https://www.quora.com').toString()` for the site-relative
hrefs discovery yields. -/
def fullUrl (href : String) : String := "https://www.quora.com" ++ href

/-- Does `hay` start with `need`? -/
def leadsList : List Char → List Char → Bool
  | [], _ => true
  | _ :: _, [] => false
  | c :: cs, d :: ds => c == d && leadsList cs ds

/-- JavaScript `String.prototype.includes`: contiguous substring test. -/
def includesList (hay need : List Char) : Bool :=
  leadsList need hay ||
    match hay with
    | [] => false
    | _ :: t => includesList t need

/-- `toLowerCase` on the character list (ASCII case folding, as
`Char.toLower`). -/
def jsToLower (s : String) : List Char := s.data.map Char.toLower

/-- `c.text.toLowerCase().includes(keyword.toLowerCase())`. -/
def kwHit (text keyword : String) : Bool :=
  includesList (jsToLower text) (jsToLower keyword)

/-- The low-answer-count boost (line 169). -/
def answerScore (answers : ℕ) : ℚ :=
  if answers ≤ 2 then 2 else max 0 (1 - (answers : ℚ) / 20)

/-- The score formula of lines 165-171: `kwScore*2 + followerScore +
answerScore` with `kwScore ∈ {0,1}` and `followerScore = log10(1+followers)*1.5`. -/
def computeScore (log10 : ℕ → ℚ) (keyword text : String) (followers answers : ℕ) : ℚ :=
  (if kwHit text keyword then 1 else 0) * 2 + log10 (1 + followers) * (3 / 2) +
    answerScore answers

/-- The record pushed for one successfully scored candidate (line 172). -/
def scoredOf (log10 : ℕ → ℚ) (keyword : String) (c : SearchAnchor) (v : VisitOutcome) : Scored :=
  { href := fullUrl c.href, text := c.text, followers := v.followers, answers := v.answers,
    score := computeScore log10 keyword c.text v.followers v.answers }

structure ScoringState where
  scored : List Scored
  visited : List String
  aborted : Bool
deriving Repr

/-- The scoring loop (lines 125-179): visit each candidate in order, skip it
on a thrown error, abort the whole pass on a challenge, otherwise push its
scored record. -/
def scorePass (log10 : ℕ → ℚ) (visit : String → VisitOutcome) (keyword : String) :
    List SearchAnchor → ScoringState
  | [] => ⟨[], [], false⟩
  | c :: rest =>
    if (visit (fullUrl c.href)).error then
      ⟨(scorePass log10 visit keyword rest).scored,
        fullUrl c.href :: (scorePass log10 visit keyword rest).visited,
        (scorePass log10 visit keyword rest).aborted⟩
    else if (visit (fullUrl c.href)).challenge then
      ⟨[], [fullUrl c.href], true⟩
    else
      ⟨scoredOf log10 keyword c (visit (fullUrl c.href)) ::
          (scorePass log10 visit keyword rest).scored,
        fullUrl c.href :: (scorePass log10 visit keyword rest).visited,
        (scorePass log10 visit keyword rest).aborted⟩

/-- The comparator `(a,b) => b.score - a.score`: `a` stays before `b` exactly
when `b.score ≤ a.score`. -/
def scDescLe (a b : Scored) : Bool := decide (b.score ≤ a.score)

/-- `scoreCandidates` (lines 124-183): the scoring loop followed by the stable
descending sort of line 181 — which the mid-loop challenge `return` skips.
The second component is the trace of visited candidate URLs. -/
def scoreCandidates (log10 : ℕ → ℚ) (visit : String → VisitOutcome) (keyword : String)
    (cs : List SearchAnchor) : List Scored × List String :=
  if (scorePass log10 visit keyword cs).aborted then
    ((scorePass log10 visit keyword cs).scored, (scorePass log10 visit keyword cs).visited)
  else
    ((scorePass log10 visit keyword cs).scored.mergeSort scDescLe,
      (scorePass log10 visit keyword cs).visited)

theorem scDescLe_trans (a b c : Scored) (h1 : scDescLe a b) (h2 : scDescLe b c) :
    scDescLe a c = true := by
  simp only [scDescLe, decide_eq_true_eq] at h1 h2 ⊢
  exact le_trans h2 h1

theorem scDescLe_total (a b : Scored) : scDescLe a b || scDescLe b a := by
  simp only [scDescLe, Bool.or_eq_true, decide_eq_true_eq]
  exact le_total b.score a.score

/-- Every record the scoring loop pushes carries the score computed from its
own recorded fields. -/
theorem scorePass_mem (log10 : ℕ → ℚ) (visit : String → VisitOutcome) (keyword : String) :
    ∀ (cs : List SearchAnchor) (s : Scored), s ∈ (scorePass log10 visit keyword cs).scored →
      s.score = computeScore log10 keyword s.text s.followers s.answers
  | [], s, hs => absurd hs (List.not_mem_nil s)
  | c :: rest, s, hs => by
    unfold scorePass at hs
    by_cases he : (visit (fullUrl c.href)).error = true
    · rw [if_pos he] at hs
      exact scorePass_mem log10 visit keyword rest s hs
    · rw [if_neg he] at hs
      by_cases hch : (visit (fullUrl c.href)).challenge = true
      · rw [if_pos hch] at hs
        exact absurd hs (List.not_mem_nil s)
      · rw [if_neg hch] at hs
        rcases List.mem_cons.mp hs with rfl | hs
        · rfl
        · exact scorePass_mem log10 visit keyword rest s hs

theorem scoreCandidates_mem (log10 : ℕ → ℚ) (visit : String → VisitOutcome) (keyword : String)
    (cs : List SearchAnchor) (s : Scored) (hs : s ∈ (scoreCandidates log10 visit keyword cs).1) :
    s.score = computeScore log10 keyword s.text s.followers s.answers := by
  unfold scoreCandidates at hs
  by_cases hab : (scorePass log10 visit keyword cs).aborted = true
  · rw [if_pos hab] at hs
    exact scorePass_mem log10 visit keyword cs s hs
  · rw [if_neg hab] at hs
    exact scorePass_mem log10 visit keyword cs s (List.mem_mergeSort.mp hs)

/-- The code's score expression in the exact shape the spec writes it. -/
theorem computeScore_spec_shape (log10 : ℕ → ℚ) (keyword text : String) (followers answers : ℕ) :
    computeScore log10 keyword text followers answers =
      (if kwHit text keyword then 2 else 0) + log10 (1 + followers) * (3 / 2) +
        (if answers ≤ 2 then 2 else max 0 (1 - (answers : ℚ) / 20)) := by
  unfold computeScore answerScore
  by_cases h : kwHit text keyword = true
  · rw [if_pos h, if_pos h]
    ring
  · rw [if_neg h, if_neg h]
    ring

/-- C1: every scored candidate's score equals
`kw + log10(1+followers)*1.5 + ans` with `kw = 2` when the candidate text
contains the keyword case-insensitively and 0 otherwise, and
`ans = 2` when `answers ≤ 2` and `max 0 (1 - answers/20)` otherwise; the
score is a deterministic pure function of text, counts and keyword, so any
two scored records agreeing on those agree on the score. -/
theorem C1_score_formula (log10 : ℕ → ℚ) (visit : String → VisitOutcome) (keyword : String)
    (cs : List SearchAnchor) :
    (∀ s ∈ (scoreCandidates log10 visit keyword cs).1,
      s.score = (if kwHit s.text keyword then 2 else 0) + log10 (1 + s.followers) * (3 / 2) +
        (if s.answers ≤ 2 then 2 else max 0 (1 - (s.answers : ℚ) / 20))) ∧
    (∀ (visit2 : String → VisitOutcome) (cs2 : List SearchAnchor),
      ∀ s ∈ (scoreCandidates log10 visit keyword cs).1,
      ∀ s2 ∈ (scoreCandidates log10 visit2 keyword cs2).1,
      s.text = s2.text → s.followers = s2.followers → s.answers = s2.answers →
      s.score = s2.score) := by
  constructor
  · intro s hs
    rw [scoreCandidates_mem log10 visit keyword cs s hs, computeScore_spec_shape]
  · intro visit2 cs2 s hs s2 hs2 ht hf ha
    rw [scoreCandidates_mem log10 visit keyword cs s hs,
      scoreCandidates_mem log10 visit2 keyword cs2 s2 hs2, ht, hf, ha]

/-- The all-zero stand-in for `Math.log10` used in concrete witnesses. -/
def log10zero : ℕ → ℚ := fun _ => 0

/-- A concrete page-driver behaviour: `/a` scores with 10 answers, `/b` with
1 answer, any other page shows a challenge. -/
def cexVisit : String → VisitOutcome := fun u =>
  if u = fullUrl "/a" then ⟨false, false, 0, 10⟩
  else if u = fullUrl "/b" then ⟨false, false, 0, 1⟩
  else ⟨false, true, 0, 0⟩

def cexCands : List SearchAnchor := [⟨"a?", "/a"⟩, ⟨"b?", "/b"⟩, ⟨"c?", "/c"⟩]

/-- Witness for C1: the single candidate `/q1` is scored and its score is the
spec formula of its own fields. -/
theorem C1_score_formula_witness :
    scoredOf log10zero "mark" ⟨"Marketing?", "/q1"⟩ ⟨false, false, 5, 1⟩ ∈
      (scoreCandidates log10zero (fun _ => ⟨false, false, 5, 1⟩) "mark"
        [⟨"Marketing?", "/q1"⟩]).1 ∧
    (scoredOf log10zero "mark" ⟨"Marketing?", "/q1"⟩ ⟨false, false, 5, 1⟩).score =
      (if kwHit (scoredOf log10zero "mark" ⟨"Marketing?", "/q1"⟩ ⟨false, false, 5, 1⟩).text
          "mark" then 2 else 0) +
        log10zero (1 + (scoredOf log10zero "mark" ⟨"Marketing?", "/q1"⟩
          ⟨false, false, 5, 1⟩).followers) * (3 / 2) +
        (if (scoredOf log10zero "mark" ⟨"Marketing?", "/q1"⟩ ⟨false, false, 5, 1⟩).answers ≤ 2
          then 2
          else max 0 (1 - ((scoredOf log10zero "mark" ⟨"Marketing?", "/q1"⟩
            ⟨false, false, 5, 1⟩).answers : ℚ) / 20)) := by
  have hout : (scoreCandidates log10zero (fun _ => ⟨false, false, 5, 1⟩) "mark"
      [⟨"Marketing?", "/q1"⟩]).1 =
      [scoredOf log10zero "mark" ⟨"Marketing?", "/q1"⟩ ⟨false, false, 5, 1⟩] := by
    unfold scoreCandidates
    rw [show scorePass log10zero (fun _ => ⟨false, false, 5, 1⟩) "mark"
        [⟨"Marketing?", "/q1"⟩] =
      ⟨[scoredOf log10zero "mark" ⟨"Marketing?", "/q1"⟩ ⟨false, false, 5, 1⟩],
        [fullUrl "/q1"], false⟩ from rfl]
    rw [if_neg (by decide)]
    exact List.mergeSort_singleton _
  have hmem : scoredOf log10zero "mark" ⟨"Marketing?", "/q1"⟩ ⟨false, false, 5, 1⟩ ∈
      (scoreCandidates log10zero (fun _ => ⟨false, false, 5, 1⟩) "mark"
        [⟨"Marketing?", "/q1"⟩]).1 := by
    rw [hout]
    exact List.mem_singleton.mpr rfl
  exact ⟨hmem, (C1_score_formula log10zero (fun _ => ⟨false, false, 5, 1⟩) "mark"
    [⟨"Marketing?", "/q1"⟩]).1 _ hmem⟩

/-- C4 fails as stated: when the scoring pass aborts on a challenge, the
accumulated prefix is returned without the final sort, so the result need not
be descending.  Concretely `/a` (10 answers, score 1/2) precedes `/b`
(1 answer, score 2) in the returned list. -/
theorem C4_sorted_stable_counterexample :
    ¬(scoreCandidates log10zero cexVisit "z" cexCands).1.Pairwise
      (fun a b => b.score ≤ a.score) := by
  intro hp
  have hout : (scoreCandidates log10zero cexVisit "z" cexCands).1 =
      [scoredOf log10zero "z" ⟨"a?", "/a"⟩ ⟨false, false, 0, 10⟩,
        scoredOf log10zero "z" ⟨"b?", "/b"⟩ ⟨false, false, 0, 1⟩] := by
    unfold scoreCandidates
    rw [show scorePass log10zero cexVisit "z" cexCands =
      ⟨[scoredOf log10zero "z" ⟨"a?", "/a"⟩ ⟨false, false, 0, 10⟩,
        scoredOf log10zero "z" ⟨"b?", "/b"⟩ ⟨false, false, 0, 1⟩],
        [fullUrl "/a", fullUrl "/b", fullUrl "/c"], true⟩ from rfl]
    rw [if_pos rfl]
  rw [hout] at hp
  have hle := (List.pairwise_cons.mp hp).1 _ (List.mem_cons_self _ _)
  have ha : (scoredOf log10zero "z" ⟨"a?", "/a"⟩ ⟨false, false, 0, 10⟩).score = 1 / 2 := by
    show computeScore log10zero "z" "a?" 0 10 = 1 / 2
    unfold computeScore answerScore log10zero
    rw [if_neg (by decide), if_neg (by decide),
      max_eq_right (by push_cast; norm_num)]
    push_cast
    norm_num
  have hb : (scoredOf log10zero "z" ⟨"b?", "/b"⟩ ⟨false, false, 0, 1⟩).score = 2 := by
    show computeScore log10zero "z" "b?" 0 1 = 2
    unfold computeScore answerScore log10zero
    rw [if_neg (by decide), if_pos (by decide)]
    norm_num
  rw [ha, hb] at hle
  norm_num at hle

theorem scoreCandidates_of_not_aborted (log10 : ℕ → ℚ) (visit : String → VisitOutcome)
    (keyword : String) (cs : List SearchAnchor)
    (h : (scorePass log10 visit keyword cs).aborted = false) :
    (scoreCandidates log10 visit keyword cs).1 =
      (scorePass log10 visit keyword cs).scored.mergeSort scDescLe := by
  unfold scoreCandidates
  rw [if_neg (by simp [h])]

/-- C4 (amended): on a pass that completes without a challenge abort, the
returned list is ordered by score descending, and any two records with equal
scores keep their discovery order (stability of the sort of line 181). -/
theorem C4_sorted_stable (log10 : ℕ → ℚ) (visit : String → VisitOutcome) (keyword : String)
    (cs : List SearchAnchor) (h : (scorePass log10 visit keyword cs).aborted = false) :
    (scoreCandidates log10 visit keyword cs).1.Pairwise (fun a b => b.score ≤ a.score) ∧
    (∀ x y : Scored, [x, y].Sublist (scorePass log10 visit keyword cs).scored →
      x.score = y.score → [x, y].Sublist (scoreCandidates log10 visit keyword cs).1) := by
  constructor
  · rw [scoreCandidates_of_not_aborted log10 visit keyword cs h]
    exact (List.sorted_mergeSort scDescLe_trans scDescLe_total _).imp
      (fun hab => of_decide_eq_true hab)
  · intro x y hsub heq
    rw [scoreCandidates_of_not_aborted log10 visit keyword cs h]
    refine List.pair_sublist_mergeSort scDescLe_trans scDescLe_total ?_ hsub
    simp only [scDescLe, decide_eq_true_eq]
    exact heq.ge

/-- Witness for C4 at a concrete challenge-free two-candidate pass. -/
theorem C4_sorted_stable_witness :
    (scorePass log10zero (fun _ => ⟨false, false, 0, 1⟩) "z"
      [⟨"a?", "/a"⟩, ⟨"b?", "/b"⟩]).aborted = false ∧
    ((scoreCandidates log10zero (fun _ => ⟨false, false, 0, 1⟩) "z"
      [⟨"a?", "/a"⟩, ⟨"b?", "/b"⟩]).1.Pairwise (fun a b => b.score ≤ a.score) ∧
    (∀ x y : Scored,
      [x, y].Sublist (scorePass log10zero (fun _ => ⟨false, false, 0, 1⟩) "z"
        [⟨"a?", "/a"⟩, ⟨"b?", "/b"⟩]).scored →
      x.score = y.score →
      [x, y].Sublist (scoreCandidates log10zero (fun _ => ⟨false, false, 0, 1⟩) "z"
        [⟨"a?", "/a"⟩, ⟨"b?", "/b"⟩]).1)) :=
  ⟨rfl, C4_sorted_stable log10zero (fun _ => ⟨false, false, 0, 1⟩) "z"
    [⟨"a?", "/a"⟩, ⟨"b?", "/b"⟩] rfl⟩

/-- The scoring loop on `pre ++ c :: post`, when nothing in `pre` shows a
challenge (errors allowed) and the non-erroring visit of `c` does: the loop
scores the error-free prefix, visits exactly `pre ++ [c]`, and aborts. -/
theorem scorePass_challenge (log10 : ℕ → ℚ) (visit : String → VisitOutcome) (keyword : String)
    (c : SearchAnchor) (post : List SearchAnchor)
    (he : (visit (fullUrl c.href)).error = false)
    (hch : (visit (fullUrl c.href)).challenge = true) :
    ∀ pre : List SearchAnchor,
      (∀ a ∈ pre, (visit (fullUrl a.href)).error = true ∨
        (visit (fullUrl a.href)).challenge = false) →
      scorePass log10 visit keyword (pre ++ c :: post) =
        ⟨(pre.filter (fun a => !(visit (fullUrl a.href)).error)).map
            (fun a => scoredOf log10 keyword a (visit (fullUrl a.href))),
          (pre ++ [c]).map (fun a => fullUrl a.href), true⟩
  | [], _ => by
    show scorePass log10 visit keyword (c :: post) = _
    unfold scorePass
    rw [if_neg (by simp [he]), if_pos hch]
    rfl
  | a :: pre, h => by
    have ha := h a (List.mem_cons_self a pre)
    have hrest := scorePass_challenge log10 visit keyword c post he hch pre
      (fun b hb => h b (List.mem_cons_of_mem a hb))
    show scorePass log10 visit keyword (a :: (pre ++ c :: post)) = _
    unfold scorePass
    by_cases hae : (visit (fullUrl a.href)).error = true
    · rw [if_pos hae, hrest]
      simp [List.filter_cons, hae]
    · have hach : (visit (fullUrl a.href)).challenge = false := ha.resolve_left hae
      rw [if_neg hae, if_neg (by simp [hach]), hrest]
      simp [List.filter_cons, Bool.eq_false_iff.mpr hae]

/-- C5: the instant a challenge is detected on a (non-erroring) candidate
visit, the scoring pass stops: it returns exactly the candidates scored
before the detection, in discovery order, and the visited URLs are exactly
the prefix up to and including the challenged page — nothing after it. -/
theorem C5_challenge_abort (log10 : ℕ → ℚ) (visit : String → VisitOutcome) (keyword : String)
    (pre post : List SearchAnchor) (c : SearchAnchor)
    (hpre : ∀ a ∈ pre, (visit (fullUrl a.href)).error = true ∨
      (visit (fullUrl a.href)).challenge = false)
    (he : (visit (fullUrl c.href)).error = false)
    (hch : (visit (fullUrl c.href)).challenge = true) :
    scoreCandidates log10 visit keyword (pre ++ c :: post) =
      ((pre.filter (fun a => !(visit (fullUrl a.href)).error)).map
          (fun a => scoredOf log10 keyword a (visit (fullUrl a.href))),
        (pre ++ [c]).map (fun a => fullUrl a.href)) := by
  unfold scoreCandidates
  rw [scorePass_challenge log10 visit keyword c post he hch pre hpre, if_pos rfl]

def c5pre : List SearchAnchor := [⟨"a?", "/a"⟩]

def c5post : List SearchAnchor := [⟨"d?", "/d"⟩]

def c5mid : SearchAnchor := ⟨"c?", "/c"⟩

/-- Witness for C5: one clean candidate, then a challenge on `/c`; the third
candidate `/d` is never visited. -/
theorem C5_challenge_abort_witness :
    (cexVisit (fullUrl c5mid.href)).error = false ∧
    (cexVisit (fullUrl c5mid.href)).challenge = true ∧
    scoreCandidates log10zero cexVisit "z" (c5pre ++ c5mid :: c5post) =
      ((c5pre.filter (fun a => !(cexVisit (fullUrl a.href)).error)).map
          (fun a => scoredOf log10zero "z" a (cexVisit (fullUrl a.href))),
        (c5pre ++ [c5mid]).map (fun a => fullUrl a.href)) :=
  ⟨by decide, by decide,
    C5_challenge_abort log10zero cexVisit "z" c5pre c5post c5mid
      (by
        intro a ha
        rw [List.mem_singleton.mp ha]
        exact Or.inr (by decide))
      (by decide) (by decide)⟩

/-! ## One posting attempt (`attemptPost`, lines 294-380)

The attempt launches a browser, authenticates (session cookie first, then
credentials), discovers and scores candidates, posts to the top candidate,
falls back to a Space post on failure, and closes the browser on every return
path.  The environment record collects what the page driver and configuration
yield at each step; `throwAt` marks a driver exception escaping to the
attempt's `catch` at the given phase (exceptions inside `loginWithCreds` and
inside the scoring loop are caught locally and modelled separately). -/

inductive Phase
  | auth
  | search
  | scoring
  | posting
deriving DecidableEq, Repr

inductive AEvent
  | launch
  | gotoRoot
  | loginNav
  | search
  | visit (url : String)
  | primaryPost (url : String)
  | spacePost
  | engage
  | close
deriving DecidableEq, Repr

/-- The flat record read from `latest-blog.json`; absent keys are `none`. -/
structure BlogMeta where
  KW : Option String
  TITLE : Option String
  SNIPPET : Option String
  URL : Option String
deriving DecidableEq, Repr

/-- JavaScript truthiness of an optional string: `undefined` and `""` are
falsy. -/
def jsTruthy : Option String → Bool
  | some s => !(s == "")
  | none => false

/-- JavaScript `x || y` on an optional string `x` with string fallback. -/
def jsOrStr (x : Option String) (y : String) : String :=
  match x with
  | some s => if s == "" then y else s
  | none => y

/-- Template-literal interpolation: `undefined` prints as the literal text
`"undefined"`. -/
def jsInterp : Option String → String
  | some s => s
  | none => "undefined"

/-- `meta.KW || meta.TITLE || ''` (lines 328 and 334). -/
def buildKeyword (meta : BlogMeta) : String := jsOrStr meta.KW (jsOrStr meta.TITLE "")

/-- `meta.SNIPPET || (meta.TITLE ? meta.TITLE + ' - short summary.' :
'Short overview.')` (line 345). -/
def buildSnippet (meta : BlogMeta) : String :=
  jsOrStr meta.SNIPPET
    (if jsTruthy meta.TITLE then jsInterp meta.TITLE ++ " - short summary." else "Short overview.")

/-- The composed answer of line 346. -/
def buildAnswer (meta : BlogMeta) : String :=
  buildSnippet meta ++ "\n\nRead the full guide: " ++ jsInterp meta.URL ++
    "\n\nIf you want specifics for your business, ask and I’ll share examples."

/-- The attempt outcome object: `{ok, reason?, mode?, target?, error?}`. -/
structure AttemptResult where
  ok : Bool
  reason : Option String
  mode : Option String
  target : Option String
  error : Option String
deriving DecidableEq, Repr

def failRes (r : String) : AttemptResult := ⟨false, some r, none, none, none⟩

def exceptionRes (msg : String) : AttemptResult := ⟨false, some "exception", none, none, some msg⟩

def successRes (mode target : String) : AttemptResult := ⟨true, none, some mode, some target, none⟩

/-- Environment of one attempt: configuration flags and what the page driver
yields at each step. -/
structure AttemptEnv where
  tokenPresent : Bool
  cookieSetOk : Bool
  challengeAfterCookie : Bool
  stillLoginAfterCookie : Bool
  emailPresent : Bool
  passwordPresent : Bool
  credThrows : Bool
  credChallenge : Bool
  credStillLogin : Bool
  anchors : List SearchAnchor
  visit : String → VisitOutcome
  primaryPostOk : Bool
  spacePostOk : Bool
  engageEnabled : Bool
  throwAt : Option Phase
  errMsg : String

/-- `loginWithCreds` (lines 64-90): no credentials fails before any page
interaction; otherwise navigation/typing exceptions, a challenge, or residual
login inputs each yield `false`. -/
def loginWithCreds (env : AttemptEnv) : Bool × List AEvent :=
  if !(env.emailPresent && env.passwordPresent) then (false, [])
  else if env.credThrows then (false, [.loginNav])
  else if env.credChallenge then (false, [.loginNav])
  else (!env.credStillLogin, [.loginNav])

/-- The session-cookie path succeeds when a token is present, the cookie is
set, and neither a challenge nor login inputs appear on the root page
(lines 306-317). -/
def sessionOkOf (env : AttemptEnv) : Bool :=
  env.tokenPresent && env.cookieSetOk && !env.challengeAfterCookie &&
    !env.stillLoginAfterCookie

/-- Authentication events: a root-page visit when the cookie was applied, then
the credential login navigation when the session path did not succeed. -/
def authEvsOf (env : AttemptEnv) : List AEvent :=
  (if env.tokenPresent && env.cookieSetOk then [.gotoRoot] else []) ++
    (if sessionOkOf env then [] else (loginWithCreds env).2)

/-- Overall authentication outcome: session path, else credential path. -/
def authOkOf (env : AttemptEnv) : Bool := sessionOkOf env || (loginWithCreds env).1

instance : Inhabited Scored := ⟨⟨"", "", 0, 0, 0⟩⟩

/-- `attemptPost` (lines 295-380), returning the outcome object and the trace
of driver events.  Every return path closes the browser last, including the
`catch` handler.  `scored[0]` is `headI`, guarded by the emptiness check of
line 335 exactly as in the source. -/
def attemptPost (log10 : ℕ → ℚ) (env : AttemptEnv) (meta : BlogMeta) :
    AttemptResult × List AEvent :=
  if env.throwAt = some Phase.auth then
    (exceptionRes env.errMsg, AEvent.launch :: ([] ++ [AEvent.close]))
  else if !authOkOf env then
    (failRes "auth_failed", AEvent.launch :: (authEvsOf env ++ [AEvent.close]))
  else if env.throwAt = some Phase.search then
    (exceptionRes env.errMsg, AEvent.launch :: (authEvsOf env ++ [AEvent.close]))
  else if (collectCandidatesFromSearch env.anchors 10).isEmpty then
    (failRes "no_candidates",
      AEvent.launch :: (authEvsOf env ++ [AEvent.search] ++ [AEvent.close]))
  else if env.throwAt = some Phase.scoring then
    (exceptionRes env.errMsg,
      AEvent.launch :: (authEvsOf env ++ [AEvent.search] ++ [AEvent.close]))
  else if (scoreCandidates log10 env.visit (buildKeyword meta)
      (collectCandidatesFromSearch env.anchors 10)).1.isEmpty then
    (failRes "scoring_empty",
      AEvent.launch :: (authEvsOf env ++ [AEvent.search] ++
        (scoreCandidates log10 env.visit (buildKeyword meta)
          (collectCandidatesFromSearch env.anchors 10)).2.map AEvent.visit ++ [AEvent.close]))
  else if env.throwAt = some Phase.posting then
    (exceptionRes env.errMsg,
      AEvent.launch :: (authEvsOf env ++ [AEvent.search] ++
        (scoreCandidates log10 env.visit (buildKeyword meta)
          (collectCandidatesFromSearch env.anchors 10)).2.map AEvent.visit ++ [AEvent.close]))
  else if env.primaryPostOk then
    (successRes "question" ((scoreCandidates log10 env.visit (buildKeyword meta)
        (collectCandidatesFromSearch env.anchors 10)).1.headI).href,
      AEvent.launch :: (authEvsOf env ++ [AEvent.search] ++
        (scoreCandidates log10 env.visit (buildKeyword meta)
          (collectCandidatesFromSearch env.anchors 10)).2.map AEvent.visit ++
        [AEvent.primaryPost ((scoreCandidates log10 env.visit (buildKeyword meta)
          (collectCandidatesFromSearch env.anchors 10)).1.headI).href] ++
        (if env.engageEnabled then [AEvent.engage] else []) ++ [AEvent.close]))
  else if env.spacePostOk then
    (successRes "space" "space",
      AEvent.launch :: (authEvsOf env ++ [AEvent.search] ++
        (scoreCandidates log10 env.visit (buildKeyword meta)
          (collectCandidatesFromSearch env.anchors 10)).2.map AEvent.visit ++
        [AEvent.primaryPost ((scoreCandidates log10 env.visit (buildKeyword meta)
          (collectCandidatesFromSearch env.anchors 10)).1.headI).href] ++
        [AEvent.spacePost] ++ [AEvent.close]))
  else
    (failRes "post_failed",
      AEvent.launch :: (authEvsOf env ++ [AEvent.search] ++
        (scoreCandidates log10 env.visit (buildKeyword meta)
          (collectCandidatesFromSearch env.anchors 10)).2.map AEvent.visit ++
        [AEvent.primaryPost ((scoreCandidates log10 env.visit (buildKeyword meta)
          (collectCandidatesFromSearch env.anchors 10)).1.headI).href] ++
        [AEvent.spacePost] ++ [AEvent.close]))

theorem frame_head_last (evs : List AEvent) :
    (AEvent.launch :: (evs ++ [AEvent.close])).head? = some AEvent.launch ∧
    (AEvent.launch :: (evs ++ [AEvent.close])).getLast? = some AEvent.close := by
  refine ⟨rfl, ?_⟩
  rw [show AEvent.launch :: (evs ++ [AEvent.close]) =
    (AEvent.launch :: evs) ++ [AEvent.close] from rfl]
  exact List.getLast?_concat _

/-- C10: on every return path of an attempt — authentication failure, no
candidates, empty scoring, post failure, space-fallback success, question
success, and the exception handler — the trace starts with the browser launch
and ends with the browser close, so no attempt returns with the browser open. -/
theorem C10_browser_always_closed (log10 : ℕ → ℚ) (env : AttemptEnv) (meta : BlogMeta) :
    (attemptPost log10 env meta).2.head? = some AEvent.launch ∧
    (attemptPost log10 env meta).2.getLast? = some AEvent.close := by
  unfold attemptPost
  repeat' split
  all_goals exact frame_head_last _

/-- C6: once the attempt reaches the posting stage and the primary question
post fails, the space fallback is always attempted before any terminal
failure: a fallback failure yields exactly `post_failed`, a fallback success
yields `ok` with mode `"space"`. -/
theorem C6_fallback_on_primary_failure (log10 : ℕ → ℚ) (env : AttemptEnv) (meta : BlogMeta)
    (hthrow : env.throwAt = none)
    (hauth : authOkOf env = true)
    (hcand : (collectCandidatesFromSearch env.anchors 10).isEmpty = false)
    (hscored : (scoreCandidates log10 env.visit (buildKeyword meta)
      (collectCandidatesFromSearch env.anchors 10)).1 ≠ [])
    (hpost : env.primaryPostOk = false) :
    AEvent.spacePost ∈ (attemptPost log10 env meta).2 ∧
    (attemptPost log10 env meta).1 =
      (if env.spacePostOk then successRes "space" "space" else failRes "post_failed") := by
  have hscEmpty : (scoreCandidates log10 env.visit (buildKeyword meta)
      (collectCandidatesFromSearch env.anchors 10)).1.isEmpty = false := by
    rcases hb : (scoreCandidates log10 env.visit (buildKeyword meta)
      (collectCandidatesFromSearch env.anchors 10)).1.isEmpty with _ | _
    · rfl
    · exact absurd (List.isEmpty_iff.mp hb) hscored
  unfold attemptPost
  rw [if_neg (by simp [hthrow]), if_neg (by simp [hauth]), if_neg (by simp [hthrow]),
    if_neg (by simp [hcand]), if_neg (by simp [hthrow]), if_neg (by simp [hscEmpty]),
    if_neg (by simp [hthrow]), if_neg (by simp [hpost])]
  by_cases hsp : env.spacePostOk = true
  · rw [if_pos hsp, if_pos hsp]
    exact ⟨by simp, rfl⟩
  · rw [if_neg hsp, if_neg hsp]
    exact ⟨by simp, rfl⟩

/-- The environment with no session token and no credential pair. -/
def envNoCreds : AttemptEnv :=
  { tokenPresent := false, cookieSetOk := false, challengeAfterCookie := false,
    stillLoginAfterCookie := false, emailPresent := false, passwordPresent := false,
    credThrows := false, credChallenge := false, credStillLogin := false,
    anchors := [], visit := fun _ => ⟨false, false, 0, 0⟩,
    primaryPostOk := false, spacePostOk := false, engageEnabled := false,
    throwAt := none, errMsg := "" }

def metaEmpty : BlogMeta := ⟨none, none, none, none⟩

/-- C7 fails as stated: with neither token nor credentials configured the
attempt fails with reason `auth_failed`, not `no_credentials` — the code has
no `no_credentials`, `challenge_detected` or `credentials_rejected` reasons. -/
theorem C7_no_credentials_counterexample :
    envNoCreds.tokenPresent = false ∧ envNoCreds.emailPresent = false ∧
    envNoCreds.passwordPresent = false ∧
    (attemptPost log10zero envNoCreds metaEmpty).1 = failRes "auth_failed" ∧
    (attemptPost log10zero envNoCreds metaEmpty).1.reason ≠ some "no_credentials" := by
  refine ⟨rfl, rfl, rfl, rfl, ?_⟩
  intro h
  simp [attemptPost, envNoCreds, authOkOf, sessionOkOf, loginWithCreds, failRes] at h

/-- C7 (amended): if neither token nor credential pair is configured, the
attempt fails immediately — no navigation happens, the trace is just
launch/close — and, like every authentication failure, the reported reason is
the single value `auth_failed`. -/
theorem C7_auth_failure_reason (log10 : ℕ → ℚ) (env : AttemptEnv) (meta : BlogMeta)
    (hthrow : env.throwAt ≠ some Phase.auth) :
    (env.tokenPresent = false → (env.emailPresent && env.passwordPresent) = false →
      attemptPost log10 env meta =
        (failRes "auth_failed", [AEvent.launch, AEvent.close])) ∧
    (authOkOf env = false → (attemptPost log10 env meta).1 = failRes "auth_failed") := by
  constructor
  · intro h1 h2
    have hauth : authOkOf env = false := by
      simp [authOkOf, sessionOkOf, loginWithCreds, h1, h2]
    have hevs : authEvsOf env = [] := by
      simp [authEvsOf, sessionOkOf, loginWithCreds, h1, h2]
    unfold attemptPost
    rw [if_neg hthrow, if_pos (by simp [hauth]), hevs]
    rfl
  · intro hauth
    unfold attemptPost
    rw [if_neg hthrow, if_pos (by simp [hauth])]

/-- Witness for C7 (amended) at the concrete credential-free environment. -/
theorem C7_auth_failure_reason_witness :
    attemptPost log10zero envNoCreds metaEmpty =
      (failRes "auth_failed", [AEvent.launch, AEvent.close]) :=
  (C7_auth_failure_reason log10zero envNoCreds metaEmpty (by decide)).1 rfl rfl

/-- An environment that authenticates by cookie, finds one candidate, scores
it cleanly, fails the question post and succeeds on the space fallback. -/
def envC6 : AttemptEnv :=
  { tokenPresent := true, cookieSetOk := true, challengeAfterCookie := false,
    stillLoginAfterCookie := false, emailPresent := false, passwordPresent := false,
    credThrows := false, credChallenge := false, credStillLogin := false,
    anchors := [⟨"How?", "/q1"⟩], visit := fun _ => ⟨false, false, 0, 0⟩,
    primaryPostOk := false, spacePostOk := true, engageEnabled := false,
    throwAt := none, errMsg := "" }

/-- Witness for C6: with `envC6` the primary post fails and the attempt ends
as a space-mode success, with the space post in the trace. -/
theorem C6_fallback_on_primary_failure_witness :
    envC6.throwAt = none ∧ authOkOf envC6 = true ∧
    (collectCandidatesFromSearch envC6.anchors 10).isEmpty = false ∧
    (scoreCandidates log10zero envC6.visit (buildKeyword metaEmpty)
      (collectCandidatesFromSearch envC6.anchors 10)).1 ≠ [] ∧
    envC6.primaryPostOk = false ∧
    (AEvent.spacePost ∈ (attemptPost log10zero envC6 metaEmpty).2 ∧
      (attemptPost log10zero envC6 metaEmpty).1 =
        (if envC6.spacePostOk then successRes "space" "space" else failRes "post_failed")) := by
  have hne : (scoreCandidates log10zero envC6.visit (buildKeyword metaEmpty)
      (collectCandidatesFromSearch envC6.anchors 10)).1 ≠ [] := by
    rw [show collectCandidatesFromSearch envC6.anchors 10 = [⟨"How?", "/q1"⟩] from by decide,
      scoreCandidates_of_not_aborted log10zero envC6.visit (buildKeyword metaEmpty)
        [⟨"How?", "/q1"⟩] rfl,
      show (scorePass log10zero envC6.visit (buildKeyword metaEmpty)
        [⟨"How?", "/q1"⟩]).scored =
        [scoredOf log10zero (buildKeyword metaEmpty) ⟨"How?", "/q1"⟩
          ⟨false, false, 0, 0⟩] from rfl,
      List.mergeSort_singleton]
    exact List.cons_ne_nil _ _
  exact ⟨rfl, by decide, by decide, hne, rfl,
    C6_fallback_on_primary_failure log10zero envC6 metaEmpty rfl (by decide) (by decide) hne rfl⟩

/-! C9: missing payload fields. -/

/-- C9 fails as stated: a missing `URL` is not treated as an empty string —
the template literal interpolates the text `undefined` into the composed
answer, so the all-missing payload and the payload with `URL = ""` compose
different answers. -/
theorem C9_empty_defaults_counterexample :
    buildAnswer ⟨none, none, none, none⟩ ≠ buildAnswer ⟨none, none, none, some ""⟩ ∧
    buildAnswer ⟨none, none, none, none⟩ =
      "Short overview.\n\nRead the full guide: undefined\n\nIf you want specifics for your business, ask and I’ll share examples." := by
  constructor
  · decide
  · decide

/-- The scoring loop's shape — how many records it pushes, which URLs it
visits, whether it aborts — does not depend on the keyword (only the score
values do). -/
theorem scorePass_keyword_shape (log10 : ℕ → ℚ) (visit : String → VisitOutcome)
    (k₁ k₂ : String) : ∀ cs : List SearchAnchor,
    (scorePass log10 visit k₁ cs).scored.length = (scorePass log10 visit k₂ cs).scored.length ∧
    (scorePass log10 visit k₁ cs).visited = (scorePass log10 visit k₂ cs).visited ∧
    (scorePass log10 visit k₁ cs).aborted = (scorePass log10 visit k₂ cs).aborted
  | [] => ⟨rfl, rfl, rfl⟩
  | c :: rest => by
    have ih := scorePass_keyword_shape log10 visit k₁ k₂ rest
    unfold scorePass
    by_cases he : (visit (fullUrl c.href)).error = true
    · rw [if_pos he, if_pos he]
      exact ⟨ih.1, congrArg (List.cons (fullUrl c.href)) ih.2.1, ih.2.2⟩
    · rw [if_neg he, if_neg he]
      by_cases hch : (visit (fullUrl c.href)).challenge = true
      · rw [if_pos hch, if_pos hch]
        exact ⟨rfl, rfl, rfl⟩
      · rw [if_neg hch, if_neg hch]
        exact ⟨congrArg Nat.succ ih.1, congrArg (List.cons (fullUrl c.href)) ih.2.1, ih.2.2⟩

theorem scoreCandidates_keyword_shape (log10 : ℕ → ℚ) (visit : String → VisitOutcome)
    (k₁ k₂ : String) (cs : List SearchAnchor) :
    (scoreCandidates log10 visit k₁ cs).1.length = (scoreCandidates log10 visit k₂ cs).1.length ∧
    (scoreCandidates log10 visit k₁ cs).2 = (scoreCandidates log10 visit k₂ cs).2 := by
  have h := scorePass_keyword_shape log10 visit k₁ k₂ cs
  unfold scoreCandidates
  rw [← h.2.2]
  by_cases hab : (scorePass log10 visit k₁ cs).aborted = true
  · simp only [if_pos hab]
    exact ⟨h.1, h.2.1⟩
  · simp only [if_neg hab]
    refine ⟨?_, h.2.1⟩
    rw [List.length_mergeSort, List.length_mergeSort]
    exact h.1

theorem isEmpty_eq_of_length_eq {α β : Type} {l1 : List α} {l2 : List β}
    (h : l1.length = l2.length) : l1.isEmpty = l2.isEmpty := by
  cases l1 <;> cases l2 <;> simp_all

/-- The classification of an attempt — success flag and failure reason — does
not depend on the content payload at all. -/
theorem attemptPost_outcome_payload_independent (log10 : ℕ → ℚ) (env : AttemptEnv)
    (meta meta2 : BlogMeta) :
    (attemptPost log10 env meta).1.ok = (attemptPost log10 env meta2).1.ok ∧
    (attemptPost log10 env meta).1.reason = (attemptPost log10 env meta2).1.reason := by
  have hemp : (scoreCandidates log10 env.visit (buildKeyword meta)
      (collectCandidatesFromSearch env.anchors 10)).1.isEmpty =
      (scoreCandidates log10 env.visit (buildKeyword meta2)
        (collectCandidatesFromSearch env.anchors 10)).1.isEmpty :=
    isEmpty_eq_of_length_eq (scoreCandidates_keyword_shape log10 env.visit
      (buildKeyword meta) (buildKeyword meta2) (collectCandidatesFromSearch env.anchors 10)).1
  unfold attemptPost
  by_cases h1 : env.throwAt = some Phase.auth
  · simp only [if_pos h1]
    exact ⟨by trivial, by trivial⟩
  simp only [if_neg h1]
  by_cases h2 : (!authOkOf env) = true
  · simp only [if_pos h2]
    exact ⟨by trivial, by trivial⟩
  simp only [if_neg h2]
  by_cases h3 : env.throwAt = some Phase.search
  · simp only [if_pos h3]
    exact ⟨by trivial, by trivial⟩
  simp only [if_neg h3]
  by_cases h4 : (collectCandidatesFromSearch env.anchors 10).isEmpty = true
  · simp only [if_pos h4]
    exact ⟨by trivial, by trivial⟩
  simp only [if_neg h4]
  by_cases h5 : env.throwAt = some Phase.scoring
  · simp only [if_pos h5]
    exact ⟨by trivial, by trivial⟩
  simp only [if_neg h5]
  by_cases h6 : (scoreCandidates log10 env.visit (buildKeyword meta)
      (collectCandidatesFromSearch env.anchors 10)).1.isEmpty = true
  · simp only [if_pos h6, if_pos (hemp ▸ h6)]
    exact ⟨by trivial, by trivial⟩
  simp only [if_neg h6, if_neg (show ¬(scoreCandidates log10 env.visit (buildKeyword meta2)
    (collectCandidatesFromSearch env.anchors 10)).1.isEmpty = true from hemp ▸ h6)]
  by_cases h7 : env.throwAt = some Phase.posting
  · simp only [if_pos h7]
    exact ⟨by trivial, by trivial⟩
  simp only [if_neg h7]
  by_cases h8 : env.primaryPostOk = true
  · simp only [if_pos h8]
    exact ⟨by trivial, by trivial⟩
  simp only [if_neg h8]
  by_cases h9 : env.spacePostOk = true
  · simp only [if_pos h9]
    exact ⟨by trivial, by trivial⟩
  simp only [if_neg h9]
  exact ⟨by trivial, by trivial⟩

/-- C9 (amended): missing `keyword`, `title` and `summary` fields behave
exactly like empty strings (the search keyword defaults to `""` when both are
absent, the summary falls back to the generic defaults of line 345), a missing
`externalUrl` is interpolated into the answer as the literal text
`undefined`, and no attempt ever fails because of an absent payload field —
the attempt's success flag and failure reason are independent of the payload. -/
theorem C9_payload_missing_fields (log10 : ℕ → ℚ) (env : AttemptEnv)
    (meta meta2 : BlogMeta) :
    (∀ t s u, buildKeyword ⟨none, t, s, u⟩ = buildKeyword ⟨some "", t, s, u⟩ ∧
      buildKeyword ⟨none, none, s, u⟩ = "") ∧
    (∀ k s u, buildKeyword ⟨k, none, s, u⟩ = buildKeyword ⟨k, some "", s, u⟩) ∧
    (∀ k t u, buildSnippet ⟨k, t, none, u⟩ = buildSnippet ⟨k, t, some "", u⟩ ∧
      buildSnippet ⟨k, none, none, u⟩ = "Short overview.") ∧
    (∀ k t s, buildAnswer ⟨k, t, s, none⟩ =
      buildSnippet ⟨k, t, s, none⟩ ++ "\n\nRead the full guide: " ++ "undefined" ++
        "\n\nIf you want specifics for your business, ask and I’ll share examples.") ∧
    ((attemptPost log10 env meta).1.ok = (attemptPost log10 env meta2).1.ok ∧
      (attemptPost log10 env meta).1.reason = (attemptPost log10 env meta2).1.reason) := by
  refine ⟨?_, ?_, ?_, ?_, attemptPost_outcome_payload_independent log10 env meta meta2⟩
  · intro t s u
    exact ⟨rfl, rfl⟩
  · intro k s u
    cases k with
    | none => exact rfl
    | some ks => simp [buildKeyword, jsOrStr]
  · intro k t u
    constructor
    · rfl
    · rfl
  · intro k t s
    rfl

/-- Witness for C9 (amended) at the all-missing payload and `envC6`. -/
theorem C9_payload_missing_fields_witness :
    buildKeyword ⟨none, none, none, none⟩ = "" ∧
    buildSnippet ⟨none, none, none, none⟩ = "Short overview." ∧
    (attemptPost log10zero envC6 metaEmpty).1.ok =
      (attemptPost log10zero envC6 ⟨some "bakery", some "T", some "S", some "U"⟩).1.ok := by
  have h := C9_payload_missing_fields log10zero envC6 metaEmpty
    ⟨some "bakery", some "T", some "S", some "U"⟩
  exact ⟨(h.1 none none none).2, (h.2.2.1 none none none).2, h.2.2.2.2.1⟩

/-! ## The retry loop (main IIFE, lines 389-416)

`tries = max(1, parseInt(RETRY_MAX))` attempts run in order; a success appends
the log entry and exits 0, a failure before the last attempt sleeps
`2000 * i * i` ms, and the last failure exits 2.  `att i` abstracts whether
attempt `i` returns `ok`. -/

inductive RunEvent
  | attempt (i : ℕ)
  | backoff (ms : ℕ)
deriving DecidableEq, Repr

/-- The loop body from 1-based index `i`, with `fuel = tries - i + 1`
iterations remaining: run the attempt; on success exit 0, on failure back off
`2000 * i * i` ms when attempts remain, else exit 2. -/
def runFrom (att : ℕ → Bool) (tries : ℕ) : ℕ → ℕ → List RunEvent × ℕ
  | 0, _ => ([], 2)
  | fuel + 1, i =>
    if att i then ([RunEvent.attempt i], 0)
    else if i < tries then
      (RunEvent.attempt i :: RunEvent.backoff (2000 * i * i) ::
          (runFrom att tries fuel (i + 1)).1,
        (runFrom att tries fuel (i + 1)).2)
    else ([RunEvent.attempt i], 2)

/-- The whole loop `for(let i=1;i<=tries;i++)`. -/
def runMain (att : ℕ → Bool) (tries : ℕ) : List RunEvent × ℕ := runFrom att tries tries 1

/-- Index of the final attempt from `i`: the first success in `[i, tries]`,
or `tries` when none succeeds. -/
def stopFrom (att : ℕ → Bool) (tries : ℕ) : ℕ → ℕ → ℕ
  | 0, i => i
  | fuel + 1, i =>
    if att i then i else if i < tries then stopFrom att tries fuel (i + 1) else i

def stopIndex (att : ℕ → Bool) (tries : ℕ) : ℕ := stopFrom att tries tries 1

theorem stopFrom_ge (att : ℕ → Bool) (tries : ℕ) : ∀ fuel i, i ≤ stopFrom att tries fuel i
  | 0, i => le_refl i
  | fuel + 1, i => by
    unfold stopFrom
    by_cases h : att i = true
    · rw [if_pos h]
    · rw [if_neg h]
      by_cases h2 : i < tries
      · rw [if_pos h2]
        exact le_trans (Nat.le_succ i) (stopFrom_ge att tries fuel (i + 1))
      · rw [if_neg h2]

theorem stopFrom_le (att : ℕ → Bool) (tries : ℕ) :
    ∀ fuel i, i ≤ tries → stopFrom att tries fuel i ≤ tries
  | 0, i, h => h
  | fuel + 1, i, h => by
    unfold stopFrom
    by_cases ha : att i = true
    · rw [if_pos ha]
      exact h
    · rw [if_neg ha]
      by_cases h2 : i < tries
      · rw [if_pos h2]
        exact stopFrom_le att tries fuel (i + 1) h2
      · rw [if_neg h2]
        exact h

theorem stopFrom_first (att : ℕ → Bool) (tries : ℕ) :
    ∀ fuel i j, i ≤ j → j < stopFrom att tries fuel i → att j = false
  | 0, i, j, hij, hj => by
    unfold stopFrom at hj
    omega
  | fuel + 1, i, j, hij, hj => by
    unfold stopFrom at hj
    by_cases h : att i = true
    · rw [if_pos h] at hj
      omega
    · rw [if_neg h] at hj
      by_cases h2 : i < tries
      · rw [if_pos h2] at hj
        rcases Nat.eq_or_lt_of_le hij with rfl | hlt
        · exact Bool.eq_false_iff.mpr h
        · exact stopFrom_first att tries fuel (i + 1) j hlt hj
      · rw [if_neg h2] at hj
        omega

theorem stopFrom_hit (att : ℕ → Bool) (tries : ℕ) :
    ∀ fuel i, i ≤ tries → fuel = tries - i + 1 →
      att (stopFrom att tries fuel i) = true ∨ stopFrom att tries fuel i = tries
  | 0, i, hle, hfuel => by omega
  | fuel + 1, i, hle, hfuel => by
    unfold stopFrom
    by_cases h : att i = true
    · rw [if_pos h]
      exact Or.inl h
    · rw [if_neg h]
      by_cases h2 : i < tries
      · rw [if_pos h2]
        exact stopFrom_hit att tries fuel (i + 1) h2 (by omega)
      · rw [if_neg h2]
        exact Or.inr (by omega)

/-- The full trace of the loop from index `i`: one attempt/backoff pair per
failed index below the stop index, one final attempt, and the exit code
decided by the final attempt. -/
theorem runFrom_spec (att : ℕ → Bool) (tries : ℕ) :
    ∀ fuel i, 1 ≤ i → i ≤ tries → fuel = tries - i + 1 →
      runFrom att tries fuel i =
        (((List.range' i (stopFrom att tries fuel i - i)).map
            (fun j => [RunEvent.attempt j, RunEvent.backoff (2000 * j * j)])).flatten ++
          [RunEvent.attempt (stopFrom att tries fuel i)],
          if att (stopFrom att tries fuel i) then 0 else 2)
  | 0, i, h1, h2, hf => by omega
  | fuel + 1, i, h1, h2, hf => by
    by_cases h : att i = true
    · simp only [runFrom, stopFrom, if_pos h]
      rw [Nat.sub_self]
      simp [h]
    · by_cases h2' : i < tries
      · have ih := runFrom_spec att tries fuel (i + 1) (by omega) (by omega) (by omega)
        simp only [runFrom, stopFrom, if_neg h, if_pos h2']
        rw [ih]
        refine congrArg₂ Prod.mk ?_ rfl
        have hge : i + 1 ≤ stopFrom att tries fuel (i + 1) := stopFrom_ge att tries fuel (i + 1)
        rw [show stopFrom att tries fuel (i + 1) - i =
          (stopFrom att tries fuel (i + 1) - (i + 1)) + 1 from by omega, List.range'_succ]
        simp
      · simp only [runFrom, stopFrom, if_neg h, if_neg h2']
        rw [Nat.sub_self]
        simp [Bool.eq_false_iff.mpr h]

/-- C3: the retry loop runs attempts `1..m` where `m` is the first successful
index (or `N` when none succeeds), waits exactly `2000 * i²` ms after each
failed attempt `i < m` and nowhere else — quadratic, not exponential, with no
backoff after a success or after the final attempt — and exits 0 on success,
2 otherwise. -/
theorem C3_quadratic_backoff (att : ℕ → Bool) (tries : ℕ) (h : 1 ≤ tries) :
    runMain att tries =
      (((List.range' 1 (stopIndex att tries - 1)).map
          (fun i => [RunEvent.attempt i, RunEvent.backoff (2000 * i * i)])).flatten ++
        [RunEvent.attempt (stopIndex att tries)],
        if att (stopIndex att tries) then 0 else 2) ∧
    1 ≤ stopIndex att tries ∧ stopIndex att tries ≤ tries ∧
    (∀ j, 1 ≤ j → j < stopIndex att tries → att j = false) ∧
    (att (stopIndex att tries) = true ∨ stopIndex att tries = tries) := by
  refine ⟨runFrom_spec att tries tries 1 (le_refl 1) h (by omega),
    stopFrom_ge att tries tries 1, stopFrom_le att tries tries 1 h, ?_,
    stopFrom_hit att tries tries 1 h (by omega)⟩
  intro j hj1 hj2
  exact stopFrom_first att tries tries 1 j hj1 hj2

/-- Witness for C3: three attempts, the first two failing and the third
succeeding — trace `attempt 1, backoff 2000, attempt 2, backoff 8000,
attempt 3`, exit code 0, and no backoff after the success. -/
theorem C3_quadratic_backoff_witness :
    runMain (fun i => i == 3) 3 =
      ([RunEvent.attempt 1, RunEvent.backoff 2000, RunEvent.attempt 2, RunEvent.backoff 8000,
        RunEvent.attempt 3], 0) ∧
    (runMain (fun i => i == 3) 3 =
      (((List.range' 1 (stopIndex (fun i => i == 3) 3 - 1)).map
          (fun i => [RunEvent.attempt i, RunEvent.backoff (2000 * i * i)])).flatten ++
        [RunEvent.attempt (stopIndex (fun i => i == 3) 3)],
        if (fun i => i == 3) (stopIndex (fun i => i == 3) 3) then 0 else 2) ∧
      1 ≤ stopIndex (fun i => i == 3) 3 ∧ stopIndex (fun i => i == 3) 3 ≤ 3 ∧
      (∀ j, 1 ≤ j → j < stopIndex (fun i => i == 3) 3 → (fun i => i == 3) j = false) ∧
      ((fun i => i == 3) (stopIndex (fun i => i == 3) 3) = true ∨
        stopIndex (fun i => i == 3) 3 = 3)) :=
  ⟨by decide, C3_quadratic_backoff (fun i => i == 3) 3 (by decide)⟩

end QuoraBot
